import Mathlib

/-!
Verification of the postprocessing render-pipeline core.

Shallow embedding of:
  * `src/materials/EffectMaterial.ts` (uniform / macro merging, shader templating)
  * `src/effects/ScanlineEffect.ts`   (SCROLL macro toggling, scanline count)
  * `src/core/RenderPipeline.ts`      (pass list, resize propagation, rendering)

JavaScript numbers are modelled as rationals (`ℚ`) where fractional values
occur (device scale factors, densities) and as integers (`ℤ`) for logical
sizes; `Math.round` is `round : ℚ → ℤ` (both compute `⌊x + 1/2⌋`).
JavaScript objects used as string-keyed dictionaries are association lists
with unique keys preserved by an insert-or-update operation.
`material.needsUpdate = true` is modelled as incrementing a version counter,
matching the underlying `set needsUpdate` accessor which bumps a version;
this makes "flags recompilation exactly once" expressible.
-/

namespace Post

/-! ## Association lists standing for string-keyed JS objects -/

/-- JS object property assignment `obj[k] = v`: update the existing entry
in place, or append a fresh one at the end. Keys stay unique. -/
def setEntry : List (String × α) → String → α → List (String × α)
  | [], k, v => [(k, v)]
  | e :: rest, k, v => if e.1 = k then (k, v) :: rest else e :: setEntry rest k v

/-- JS property read `obj[k]`: first (hence only) entry with the key. -/
def getEntry : List (String × α) → String → Option α
  | [], _ => none
  | e :: rest, k => if e.1 = k then some e.2 else getEntry rest k

/-- JS `delete obj[k]`: drop the entry with the key, if any. -/
def delEntry : List (String × α) → String → List (String × α)
  | [], _ => []
  | e :: rest, k => if e.1 = k then rest else e :: delEntry rest k

/-- First option if present, otherwise the second. -/
def fallback : Option α → Option α → Option α
  | some v, _ => some v
  | none, b => b

/-- The value the last entry of `us` carrying key `k` writes, if any
(later entries override earlier ones). -/
def lastWrite : List (String × α) → String → Option α
  | [], _ => none
  | e :: rest, k => fallback (lastWrite rest k) (if e.1 = k then some e.2 else none)

/-! ## EffectMaterial (`src/materials/EffectMaterial.ts`)

Shader section keys and the two stage templates. Modelled from the spec:
the `EffectShaderSection` enumeration and the template files `effect.frag` /
`effect.vert` are not among the provided sources; spec section 4.2 fixes the
seven section keys and says each stage is a fixed template containing one
named placeholder marker per key of that stage. A marker is an atomic part
of a template; literal template text fills the space between markers. -/

inductive SKey
  | FRAGMENT_HEAD
  | FRAGMENT_HEAD_GBUFFER
  | FRAGMENT_MAIN_UV
  | FRAGMENT_MAIN_GDATA
  | FRAGMENT_MAIN_IMAGE
  | VERTEX_HEAD
  | VERTEX_MAIN_SUPPORT
  deriving DecidableEq

/-- One part of a shader template: literal text or a placeholder marker. -/
inductive Part
  | lit (s : String)
  | marker (k : SKey)
  deriving DecidableEq

/-- The placeholder text a marker stands for in the raw template. -/
def markerText : SKey → String
  | SKey.FRAGMENT_HEAD => "FRAGMENT_HEAD"
  | SKey.FRAGMENT_HEAD_GBUFFER => "FRAGMENT_HEAD_GBUFFER"
  | SKey.FRAGMENT_MAIN_UV => "FRAGMENT_MAIN_UV"
  | SKey.FRAGMENT_MAIN_GDATA => "FRAGMENT_MAIN_GDATA"
  | SKey.FRAGMENT_MAIN_IMAGE => "FRAGMENT_MAIN_IMAGE"
  | SKey.VERTEX_HEAD => "VERTEX_HEAD"
  | SKey.VERTEX_MAIN_SUPPORT => "VERTEX_MAIN_SUPPORT"

/-- Modelled from the spec: the fragment stage template, with its five section
markers in template order and literal GLSL text between them. -/
def fragmentTemplate : List Part :=
  [Part.lit ("fragment stage prelude "), Part.marker SKey.FRAGMENT_HEAD_GBUFFER,
   Part.lit (" gbuffer declarations done "), Part.marker SKey.FRAGMENT_HEAD,
   Part.lit (" head done; main begins "), Part.marker SKey.FRAGMENT_MAIN_GDATA,
   Part.lit (" gdata sampled "), Part.marker SKey.FRAGMENT_MAIN_UV,
   Part.lit (" uv remapped "), Part.marker SKey.FRAGMENT_MAIN_IMAGE,
   Part.lit (" image composed; main ends")]

/-- Modelled from the spec: the vertex stage template with its two markers. -/
def vertexTemplate : List Part :=
  [Part.lit ("vertex stage prelude "), Part.marker SKey.VERTEX_HEAD,
   Part.lit (" head done; main begins "), Part.marker SKey.VERTEX_MAIN_SUPPORT,
   Part.lit (" support code done; main ends")]

/-- `String.prototype.replace` with a plain-string pattern replaces the first
occurrence only; on the part representation this substitutes literal text for
the first marker carrying the key. -/
def replaceMarker : List Part → SKey → String → List Part
  | [], _, _ => []
  | Part.lit t :: rest, k, s => Part.lit t :: replaceMarker rest k s
  | Part.marker k2 :: rest, k, s =>
      if k2 = k then Part.lit s :: rest else Part.marker k2 :: replaceMarker rest k s

/-- Renders a template to the raw shader string. -/
def flatten : List Part → String
  | [] => ""
  | Part.lit s :: rest => s ++ flatten rest
  | Part.marker k :: rest => markerText k ++ flatten rest

/-- Is the part literal text (no marker left)? -/
def isLit : Part → Bool
  | Part.lit _ => true
  | Part.marker _ => false

/-- State of an `EffectMaterial`. Uniform objects are opaque references,
named by natural numbers; `defines` maps macro names to macro values.
`version` counts the `needsUpdate = true` assignments performed so far
(the underlying three.js accessor bumps an internal version each time),
so "flags recompilation exactly once" is `version` increasing by one. -/
structure EffectMaterial where
  uniforms : List (String × Nat)
  defines : List (String × String)
  fragmentShader : String
  vertexShader : String
  version : Nat
  deriving DecidableEq

/-- The `EffectMaterial` constructor: declares the `gBuffer` and `time`
uniforms, no macros; the raw templates are the initial shader sources. -/
def EffectMaterial.init : EffectMaterial :=
  { uniforms := [(("gBuffer"), 0), (("time"), 1)]
    defines := []
    fragmentShader := flatten fragmentTemplate
    vertexShader := flatten vertexTemplate
    version := 0 }

/-- `EffectMaterial.setUniforms`: assigns `this.uniforms[name] = value` for
each entry in iteration order. The source never touches `needsUpdate` here. -/
def setUniforms (m : EffectMaterial) (us : List (String × Nat)) : EffectMaterial :=
  { m with uniforms := us.foldl (fun acc e => setEntry acc e.1 e.2) m.uniforms }

/-- `EffectMaterial.setDefines`: assigns `this.defines[name] = value` for each
entry, then sets `needsUpdate = true`. -/
def setDefines (m : EffectMaterial) (ds : List (String × String)) : EffectMaterial :=
  { m with defines := ds.foldl (fun acc e => setEntry acc e.1 e.2) m.defines
           version := m.version + 1 }

/-- `get colorSpaceConversion`: whether the macro is declared. -/
def colorSpaceConversion (m : EffectMaterial) : Bool :=
  (getEntry m.defines ("COLOR_SPACE_CONVERSION")).isSome

/-- `set colorSpaceConversion`: if the value differs from the current one,
add or delete the `COLOR_SPACE_CONVERSION` macro and set `needsUpdate = true`;
otherwise do nothing. -/
def setColorSpaceConversion (m : EffectMaterial) (value : Bool) : EffectMaterial :=
  if colorSpaceConversion m = value then m
  else
    { m with
      defines :=
        if value then setEntry m.defines ("COLOR_SPACE_CONVERSION") ("1")
        else delEntry m.defines ("COLOR_SPACE_CONVERSION")
      version := m.version + 1 }

/-- The fragment template after the five substitutions of
`EffectMaterial.setShaderParts`, in source order; a key absent from the
mapping (`undefined` or `null`, via `?? ""`) contributes the empty string. -/
def fragParts (sp : SKey → Option String) : List Part :=
  replaceMarker
    (replaceMarker
      (replaceMarker
        (replaceMarker
          (replaceMarker fragmentTemplate SKey.FRAGMENT_MAIN_IMAGE
            ((sp SKey.FRAGMENT_MAIN_IMAGE).getD ("")))
          SKey.FRAGMENT_MAIN_GDATA ((sp SKey.FRAGMENT_MAIN_GDATA).getD ("")))
        SKey.FRAGMENT_MAIN_UV ((sp SKey.FRAGMENT_MAIN_UV).getD ("")))
      SKey.FRAGMENT_HEAD ((sp SKey.FRAGMENT_HEAD).getD ("")))
    SKey.FRAGMENT_HEAD_GBUFFER ((sp SKey.FRAGMENT_HEAD_GBUFFER).getD (""))

/-- The vertex template after the two substitutions of
`EffectMaterial.setShaderParts`, in source order. -/
def vertParts (sp : SKey → Option String) : List Part :=
  replaceMarker
    (replaceMarker vertexTemplate SKey.VERTEX_MAIN_SUPPORT
      ((sp SKey.VERTEX_MAIN_SUPPORT).getD ("")))
    SKey.VERTEX_HEAD ((sp SKey.VERTEX_HEAD).getD (""))

/-- `EffectMaterial.setShaderParts`: substitutes the section sources into the
two templates, stores the results and sets `needsUpdate = true`. Compilation
itself is deferred to the renderer and is not part of this state. -/
def setShaderParts (m : EffectMaterial) (sp : SKey → Option String) : EffectMaterial :=
  { m with fragmentShader := flatten (fragParts sp)
           vertexShader := flatten (vertParts sp)
           version := m.version + 1 }

/-! ## ScanlineEffect (`src/effects/ScanlineEffect.ts`)

The effect's observable state, projected from the `Effect` base class.
Modelled from the spec where the base class is not among the provided
sources: `input.uniforms` is a name-keyed map of which this effect owns the
`count` and `scrollSpeed` entries; `input.defines` is a macro map of which
this effect only ever touches the `SCROLL` key; `setChanged` trips the
effect's dirty signal, counted here by `changed`; the effect holds a
`resolution` whose effective height feeds `updateCount` and which the host
keeps in sync, invoking the `onResolutionChange` hook on changes. -/

structure Scanline where
  /-- Backing field `d` of the `density` accessor. -/
  d : ℚ
  /-- Value of the `scrollSpeed` uniform. -/
  scroll : ℚ
  /-- Value of the `count` uniform. -/
  count : ℤ
  /-- Whether `input.defines` declares the `SCROLL` macro. -/
  hasSCROLL : Bool
  /-- How many times `setChanged` has tripped the dirty signal. -/
  changed : Nat
  /-- Effective height of the effect's `resolution`. -/
  height : ℚ
  deriving DecidableEq

/-- `set scrollSpeed`: store the uniform value; at zero delete the `SCROLL`
macro (dirty only if it was present), otherwise add it (dirty only if it was
absent). -/
def Scanline.setScrollSpeed (s : Scanline) (value : ℚ) : Scanline :=
  let s1 := { s with scroll := value }
  if value = 0 then
    if s1.hasSCROLL then { s1 with hasSCROLL := false, changed := s1.changed + 1 }
    else s1
  else
    if s1.hasSCROLL then s1
    else { s1 with hasSCROLL := true, changed := s1.changed + 1 }

/-- `updateCount(height)`: `count = Math.round(height * this.density)`. -/
def Scanline.updateCount (s : Scanline) (height : ℚ) : Scanline :=
  { s with count := round (height * s.d) }

/-- The `ScanlineEffect` constructor: initialize the `count` and `scrollSpeed`
uniforms to 0, set the backing density field, then run the `scrollSpeed`
setter on the option value. A fresh effect's resolution has base size 0. -/
def Scanline.mk0 (density scrollSpeed : ℚ) : Scanline :=
  Scanline.setScrollSpeed
    { d := density, scroll := 0, count := 0, hasSCROLL := false, changed := 0, height := 0 }
    scrollSpeed

/-- `set density`: store the backing field, then `updateCount` from the
current resolution height. -/
def Scanline.setDensity (s : Scanline) (value : ℚ) : Scanline :=
  Scanline.updateCount { s with d := value } s.height

/-- `onResolutionChange(resolution)` hook: the host delivers the effect's own
resolution, whose effective height is `h`; recompute the count from it. -/
def Scanline.onResolutionChange (s : Scanline) (h : ℚ) : Scanline :=
  Scanline.updateCount { s with height := h } h

/-- `setSize(width, height)`: recompute the count from the given height. -/
def Scanline.setSize (s : Scanline) (_w h : ℚ) : Scanline :=
  Scanline.updateCount s h

/-- States a `ScanlineEffect` can reach: constructed with any options, then
mutated through its setters and the host-driven resolution hook. -/
inductive Scanline.Reach : Scanline → Prop
  | mk (density scrollSpeed : ℚ) : Scanline.Reach (Scanline.mk0 density scrollSpeed)
  | density (s : Scanline) (v : ℚ) : Scanline.Reach s → Scanline.Reach (s.setDensity v)
  | scroll (s : Scanline) (v : ℚ) : Scanline.Reach s → Scanline.Reach (s.setScrollSpeed v)
  | resolution (s : Scanline) (h : ℚ) : Scanline.Reach s → Scanline.Reach (s.onResolutionChange h)

/-! ## RenderPipeline (`src/core/RenderPipeline.ts`) -/

/-- Modelled from the spec: the external renderer at its boundary. It keeps a
logical (CSS) size, a positive device scale factor, and the style flag passed
to its most recent `setSize` call; its device-scaled drawing-buffer size is
`round(logical size × device scale factor)` (spec sections 4.1 and 8). -/
structure Renderer where
  width : ℤ
  height : ℤ
  scaleFactor : ℚ
  lastStyle : Option Bool
  deriving DecidableEq

/-- `renderer.setSize(w, h, updateStyle)`. -/
def Renderer.setSize (r : Renderer) (w h : ℤ) (style : Bool) : Renderer :=
  { r with width := w, height := h, lastStyle := some style }

/-- Width component of `renderer.getDrawingBufferSize`. -/
def Renderer.drawingWidth (r : Renderer) : ℤ :=
  round ((r.width : ℚ) * r.scaleFactor)

/-- Height component of `renderer.getDrawingBufferSize`. -/
def Renderer.drawingHeight (r : Renderer) : ℤ :=
  round ((r.height : ℚ) * r.scaleFactor)

/-- Modelled from the spec: `Resolution` (§3) — integer base size, rational
scale factor defaulting to 1, derived effective size `round(base × scale)`,
and a change notification fired once per mutation that actually changes the
stored base size. -/
structure Resolution where
  baseWidth : ℤ
  baseHeight : ℤ
  scale : ℚ
  deriving DecidableEq

/-- A fresh `Resolution`: zero base size, scale 1. -/
def Resolution.initial : Resolution :=
  { baseWidth := 0, baseHeight := 0, scale := 1 }

/-- Effective width, `round(base width × scale)`. -/
def Resolution.width (r : Resolution) : ℤ :=
  round ((r.baseWidth : ℚ) * r.scale)

/-- Effective height, `round(base height × scale)`. -/
def Resolution.height (r : Resolution) : ℤ :=
  round ((r.baseHeight : ℚ) * r.scale)

/-- `resolution.setBaseSize(w, h)`. -/
def Resolution.setBaseSize (r : Resolution) (w h : ℤ) : Resolution :=
  { r with baseWidth := w, baseHeight := h }

/-- A pass as the pipeline sees it: object identity (`pid`, standing for the
JS reference), name, enabled flag, and its own `Resolution`. The renderer
and timer handles are tracked in the lifecycle model below. -/
structure PassObj where
  pid : Nat
  name : String
  enabled : Bool
  resolution : Resolution
  deriving DecidableEq

/-- One observable event of a `render` call. -/
inductive REvent
  | timerUpdate (timestamp : Option ℚ)
  | passRender (pid : Nat)
  deriving DecidableEq

/-- Pipeline state: current renderer (nullable), ordered pass list, shared
resolution, the stored `updateStyle` flag, and the log of timestamps handed
to `Timer.update` (the Timer itself is modelled from the spec as a frame
clock consuming these timestamps). -/
structure Pipeline where
  renderer : Option Renderer
  passes : List PassObj
  resolution : Resolution
  updateStyle : Bool
  timerLog : List (Option ℚ)
  deriving DecidableEq

/-- The `RenderPipeline` constructor: stores the renderer handle directly
(no resize), empty pass list, fresh resolution, `updateStyle = true`. -/
def Pipeline.construct (r : Option Renderer) : Pipeline :=
  { renderer := r, passes := [], resolution := Resolution.initial
    updateStyle := true, timerLog := [] }

/-- `onResolutionChange`: a logged no-op without a renderer; otherwise resize
the renderer to the effective resolution when its logical size differs
(passing the stored `updateStyle`), then push the device-scaled
drawing-buffer size into every pass's resolution as its base size. -/
def Pipeline.onResolutionChange (p : Pipeline) : Pipeline :=
  match p.renderer with
  | none => p
  | some r =>
      let w := p.resolution.width
      let h := p.resolution.height
      let r1 := if r.width = w ∧ r.height = h then r else r.setSize w h p.updateStyle
      { p with
        renderer := some r1
        passes := p.passes.map fun x =>
          { x with resolution := x.resolution.setBaseSize r1.drawingWidth r1.drawingHeight } }

/-- `setSize(width, height, updateStyle)`: overwrite the stored style flag,
then set the resolution's base size; the resolution's change event (and with
it `onResolutionChange`) fires exactly when the base size actually changed. -/
def Pipeline.setSize (p : Pipeline) (w h : ℤ) (us : Bool) : Pipeline :=
  let p1 := { p with updateStyle := us }
  if w = p1.resolution.baseWidth ∧ h = p1.resolution.baseHeight then p1
  else Pipeline.onResolutionChange { p1 with resolution := p1.resolution.setBaseSize w h }

/-- `set renderer`: store the handle (the per-pass renderer handles live in
the lifecycle model); when the new value is non-null, run a full resolution
resync via `onResolutionChange`. -/
def Pipeline.setRenderer (p : Pipeline) (v : Option Renderer) : Pipeline :=
  let p1 := { p with renderer := v }
  match v with
  | none => p1
  | some _ => Pipeline.onResolutionChange p1

/-- `registerPass`: with a renderer attached, sync the new pass's resolution
base size from the current drawing-buffer size. -/
def Pipeline.registerPass (p : Pipeline) (x : PassObj) : PassObj :=
  match p.renderer with
  | none => x
  | some r =>
      { x with resolution := x.resolution.setBaseSize r.drawingWidth r.drawingHeight }

/-- `addPass`: throw when the same pass object (identity, modelled by `pid`)
is already a member — the duplicate check precedes every mutation — else
register the pass and append it to the list. -/
def Pipeline.addPass (p : Pipeline) (x : PassObj) : Except String Pipeline :=
  if p.passes.any fun y => y.pid == x.pid then
    Except.error (("Unable to add pass ") ++ x.name ++ (" because it was already added"))
  else
    Except.ok { p with passes := p.passes ++ [p.registerPass x] }

/-- The pipeline state after an `addPass` call; a throwing call leaves the
state it had before. -/
def Pipeline.addPassState (p : Pipeline) (x : PassObj) : Pipeline :=
  match p.addPass x with
  | Except.ok q => q
  | Except.error _ => p

/-- `removePass`: splice the pass out of the list when present (the handle
reset is tracked in the lifecycle model); a silent no-op otherwise. -/
def Pipeline.removePass (p : Pipeline) (i : Nat) : Pipeline :=
  if p.passes.any fun y => y.pid == i then
    { p with passes := p.passes.eraseP fun y => y.pid == i }
  else p

/-- `removeAllPasses`: clear the list. -/
def Pipeline.removeAllPasses (p : Pipeline) : Pipeline :=
  { p with passes := [] }

/-- The loop body of `render`: one `pass.render()` event per enabled pass,
in list order; disabled passes are skipped. -/
def renderLoop : List PassObj → List REvent
  | [] => []
  | x :: rest =>
      if x.enabled then REvent.passRender x.pid :: renderLoop rest
      else renderLoop rest

/-- `render(timestamp?)`: an early return without a renderer; otherwise
`Timer.update(timestamp)` followed by the pass loop. Returns the new state
and the ordered event trace of the call. -/
def Pipeline.render (p : Pipeline) (timestamp : Option ℚ) : Pipeline × List REvent :=
  match p.renderer with
  | none => (p, [])
  | some _ =>
      ({ p with timerLog := p.timerLog ++ [timestamp] },
       REvent.timerUpdate timestamp :: renderLoop p.passes)

/-- Pipeline states reachable through the public interface; `setSize` takes
positive sizes (spec §6: width and height are positive integers). -/
inductive Pipeline.Reach : Pipeline → Prop
  | construct (r : Option Renderer) : Pipeline.Reach (Pipeline.construct r)
  | addPass (p : Pipeline) (x : PassObj) :
      Pipeline.Reach p → Pipeline.Reach (p.addPassState x)
  | removePass (p : Pipeline) (i : Nat) :
      Pipeline.Reach p → Pipeline.Reach (p.removePass i)
  | removeAll (p : Pipeline) :
      Pipeline.Reach p → Pipeline.Reach p.removeAllPasses
  | setRenderer (p : Pipeline) (v : Option Renderer) :
      Pipeline.Reach p → Pipeline.Reach (p.setRenderer v)
  | setSize (p : Pipeline) (w h : ℤ) (us : Bool) :
      0 < w → 0 < h → Pipeline.Reach p → Pipeline.Reach (p.setSize w h us)
  | render (p : Pipeline) (ts : Option ℚ) :
      Pipeline.Reach p → Pipeline.Reach (p.render ts).1

/-- Resize-propagation invariant: the shared resolution's scale stays at its
default 1 (no public operation changes it), and with a renderer attached
every pass's base size matches the drawing-buffer size, while the renderer's
logical size matches the effective resolution unless no resize has happened
yet (base size still 0 × 0). -/
def Pipeline.Inv (p : Pipeline) : Prop :=
  p.resolution.scale = 1 ∧
  ∀ r, p.renderer = some r →
    (∀ x ∈ p.passes,
      x.resolution.baseWidth = r.drawingWidth ∧
      x.resolution.baseHeight = r.drawingHeight) ∧
    ((r.width = p.resolution.width ∧ r.height = p.resolution.height) ∨
     (p.resolution.baseWidth = 0 ∧ p.resolution.baseHeight = 0))

/-! ## Pass lifecycle (`registerPass` / `unregisterPass` handle wiring)

A world of pass objects around one pipeline. Pass renderer/timer handles are
booleans: `true` stands for a non-null handle. `registerPass` assigns
`pass.renderer = this.renderer` — which is null exactly when the pipeline's
renderer is null — and `pass.timer = this.timer` (always non-null);
`unregisterPass` nulls both; the `renderer` setter reassigns every member
pass's renderer handle. -/

structure PassHandles where
  hasRenderer : Bool
  hasTimer : Bool
  deriving DecidableEq

/-- All pass objects in existence (by identity), the pipeline's member list,
and whether the pipeline's own renderer is non-null. -/
structure World where
  rendererPresent : Bool
  members : List Nat
  pool : Nat → Option PassHandles

/-- A pipeline constructed with or without a renderer, before any pass
exists. -/
def World.construct (rp : Bool) : World :=
  { rendererPresent := rp, members := [], pool := fun _ => none }

/-- A pass is constructed independently of any pipeline, with null handles. -/
def World.newPass (w : World) (i : Nat) : World :=
  { w with pool := fun j =>
      if j = i then some { hasRenderer := false, hasTimer := false } else w.pool j }

/-- `addPass`: a duplicate throws before any mutation; otherwise
`registerPass` wires the handles (`renderer` from the pipeline's nullable
renderer, `timer` always) and the pass is appended. -/
def World.addPass (w : World) (i : Nat) : World :=
  if w.members.any fun j => j == i then w
  else
    { w with
      members := w.members ++ [i]
      pool := fun j =>
        if j = i then some { hasRenderer := w.rendererPresent, hasTimer := true }
        else w.pool j }

/-- `removePass`: when present, splice out and null both handles via
`unregisterPass`; otherwise a silent no-op. -/
def World.removePass (w : World) (i : Nat) : World :=
  if w.members.any fun j => j == i then
    { w with
      members := w.members.erase i
      pool := fun j =>
        if j = i then (w.pool j).map fun _ => { hasRenderer := false, hasTimer := false }
        else w.pool j }
  else w

/-- `removeAllPasses`: `unregisterPass` every member, then clear the list. -/
def World.removeAllPasses (w : World) : World :=
  { w with
    members := []
    pool := fun j =>
      if w.members.any fun m => m == j then
        (w.pool j).map fun _ => { hasRenderer := false, hasTimer := false }
      else w.pool j }

/-- `set renderer`: store the new nullable handle and reassign every member
pass's renderer handle to it (timer handles are untouched). -/
def World.setRenderer (w : World) (rp : Bool) : World :=
  { w with
    rendererPresent := rp
    pool := fun j =>
      if w.members.any fun m => m == j then
        (w.pool j).map fun h => { h with hasRenderer := rp }
      else w.pool j }

/-- Worlds reachable from a fresh pipeline through pass construction and the
pipeline's public pass-list interface. -/
inductive World.Reach : World → Prop
  | construct (rp : Bool) : World.Reach (World.construct rp)
  | newPass (w : World) (i : Nat) :
      w.pool i = none → World.Reach w → World.Reach (w.newPass i)
  | addPass (w : World) (i : Nat) (h : PassHandles) :
      w.pool i = some h → World.Reach w → World.Reach (w.addPass i)
  | removePass (w : World) (i : Nat) :
      World.Reach w → World.Reach (w.removePass i)
  | removeAll (w : World) :
      World.Reach w → World.Reach w.removeAllPasses
  | setRenderer (w : World) (rp : Bool) :
      World.Reach w → World.Reach (w.setRenderer rp)

/-- Lifecycle invariant: members are distinct existing passes; a pass's timer
handle is non-null exactly when it is a member, and its renderer handle is
non-null exactly when it is a member and the pipeline's renderer is
non-null. -/
def World.Inv (w : World) : Prop :=
  w.members.Nodup ∧
  (∀ i ∈ w.members, w.pool i ≠ none) ∧
  (∀ i h, w.pool i = some h →
    ((h.hasTimer = true) ↔ i ∈ w.members) ∧
    ((h.hasRenderer = true) ↔ (i ∈ w.members ∧ w.rendererPresent = true)))

/-! ## Theorems -/

/-! ### Association-list lemmas -/

theorem getEntry_setEntry_self (m : List (String × α)) (k : String) (v : α) :
    getEntry (setEntry m k v) k = some v := by
  induction m with
  | nil => simp [setEntry, getEntry]
  | cons e rest ih =>
      by_cases he : e.1 = k
      · simp [setEntry, getEntry, he]
      · simp [setEntry, getEntry, he, ih]

theorem getEntry_setEntry_ne (m : List (String × α)) (k k2 : String) (v : α)
    (h : k2 ≠ k) : getEntry (setEntry m k v) k2 = getEntry m k2 := by
  have hk : ¬ k = k2 := fun hh => h hh.symm
  induction m with
  | nil => simp [setEntry, getEntry, hk]
  | cons e rest ih =>
      by_cases he : e.1 = k
      · have he2 : ¬ e.1 = k2 := fun hh => hk (he.symm.trans hh)
        simp [setEntry, getEntry, he, hk, he2]
      · simp [setEntry, getEntry, he, ih]

theorem getEntry_eq_none :
    ∀ (m : List (String × α)) (k : String), k ∉ m.map Prod.fst →
      getEntry m k = none
  | [], _, _ => rfl
  | e :: rest, k, hk => by
      simp only [List.map_cons, List.mem_cons, not_or] at hk
      have hf : ¬ e.1 = k := fun hh => hk.1 hh.symm
      simp [getEntry, hf, getEntry_eq_none rest k hk.2]

theorem getEntry_delEntry_ne (m : List (String × α)) (k k2 : String)
    (h : k2 ≠ k) : getEntry (delEntry m k) k2 = getEntry m k2 := by
  induction m with
  | nil => simp [delEntry]
  | cons e rest ih =>
      by_cases he : e.1 = k
      · have he2 : ¬ e.1 = k2 := fun hh => h (hh.symm.trans he)
        have hk2 : ¬ k = k2 := fun hh => h hh.symm
        simp [delEntry, getEntry, he, he2, hk2]
      · simp [delEntry, getEntry, he, ih]

theorem getEntry_delEntry_self (m : List (String × α)) (k : String)
    (hm : (m.map Prod.fst).Nodup) : getEntry (delEntry m k) k = none := by
  induction m with
  | nil => simp [delEntry, getEntry]
  | cons e rest ih =>
      simp only [List.map_cons, List.nodup_cons] at hm
      by_cases he : e.1 = k
      · simp only [delEntry, if_pos he]
        exact getEntry_eq_none rest k (he ▸ hm.1)
      · simp [delEntry, getEntry, he, ih hm.2]

theorem fallback_assoc (a b c : Option α) :
    fallback (fallback a b) c = fallback a (fallback b c) := by
  cases a <;> rfl

theorem getEntry_setEntry_fb (m : List (String × α)) (a : String) (v : α)
    (k : String) :
    getEntry (setEntry m a v) k = fallback (if a = k then some v else none) (getEntry m k) := by
  by_cases h : a = k
  · subst h
    rw [getEntry_setEntry_self, if_pos rfl]
    rfl
  · rw [getEntry_setEntry_ne m a k v (fun hh => h hh.symm), if_neg h]
    rfl

/-- Folding JS property assignments over an entry list: the last entry with a
given key wins, and keys not written keep their old value. -/
theorem getEntry_foldl_setEntry (us : List (String × α)) (m0 : List (String × α))
    (k : String) :
    getEntry (us.foldl (fun acc e => setEntry acc e.1 e.2) m0) k =
      fallback (lastWrite us k) (getEntry m0 k) := by
  induction us generalizing m0 with
  | nil => rfl
  | cons e rest ih =>
      simp only [List.foldl_cons]
      rw [ih, getEntry_setEntry_fb, lastWrite, fallback_assoc]

/-! ### ScanlineEffect -/

/-- Invariant behind C9: in every reachable `ScanlineEffect` state the
`count` uniform equals `Math.round(resolution height × density)`. -/
theorem scanline_count_inv (s : Scanline) (hs : Scanline.Reach s) :
    s.count = round (s.height * s.d) := by
  induction hs with
  | mk density scrollSpeed =>
      simp only [Scanline.mk0, Scanline.setScrollSpeed]
      split_ifs <;> simp
  | density s v _ ih =>
      simp [Scanline.setDensity, Scanline.updateCount]
  | scroll s v _ ih =>
      simp only [Scanline.setScrollSpeed]
      split_ifs <;> simpa using ih
  | resolution s h _ ih =>
      simp [Scanline.onResolutionChange, Scanline.updateCount]

/-- C9: in every reachable state the `count` uniform equals
`round(height × density)` for the effect's current resolution height; a
resolution change to height `h` recomputes it as `round(h × density)`, so a
change that keeps the height (for instance a width-only resize) leaves the
count unchanged. -/
theorem scanline_count_spec (s : Scanline) (hs : Scanline.Reach s) :
    s.count = round (s.height * s.d) ∧
    (∀ h : ℚ, (s.onResolutionChange h).count = round (h * s.d)) ∧
    (∀ h : ℚ, h = s.height → (s.onResolutionChange h).count = s.count) := by
  refine ⟨scanline_count_inv s hs, ?_, ?_⟩
  · intro h
    simp [Scanline.onResolutionChange, Scanline.updateCount]
  · intro h hh
    subst hh
    simp [Scanline.onResolutionChange, Scanline.updateCount,
      scanline_count_inv s hs]

/-- C9 witness: density 1.25 gives count 750 at height 600 and count 800 at
height 640. -/
theorem scanline_count_spec_witness :
    ((Scanline.mk0 (5 / 4) 0).onResolutionChange 600).count = 750 ∧
    ((Scanline.mk0 (5 / 4) 0).onResolutionChange 640).count = 800 := by
  have h := scanline_count_spec (Scanline.mk0 (5 / 4) 0)
    (Scanline.Reach.mk (5 / 4) 0)
  have h600 := h.2.1 600
  have h640 := h.2.1 640
  have hd : (Scanline.mk0 (5 / 4) 0).d = 5 / 4 := rfl
  rw [hd] at h600 h640
  refine ⟨h600.trans ?_, h640.trans ?_⟩
  · have he : (600 : ℚ) * (5 / 4) = 750 := by norm_num
    rw [he]
    exact_mod_cast round_intCast (α := ℚ) 750
  · have he : (640 : ℚ) * (5 / 4) = 800 := by norm_num
    rw [he]
    exact_mod_cast round_intCast (α := ℚ) 800

/-- C5: constructed with scroll speed 0 the SCROLL macro is undeclared and
the dirty signal untripped; from a state without the macro, a nonzero scroll
speed adds it and trips the dirty signal exactly once; from a state with the
macro, scroll speed 0 removes it and trips the dirty signal exactly once;
re-assigning the same nonzero value changes nothing at all. -/
theorem scanline_scroll_macro (dd v : ℚ) (s : Scanline) (hv : v ≠ 0) :
    ((Scanline.mk0 dd 0).hasSCROLL = false ∧ (Scanline.mk0 dd 0).changed = 0) ∧
    (s.hasSCROLL = false →
      (s.setScrollSpeed v).hasSCROLL = true ∧
      (s.setScrollSpeed v).changed = s.changed + 1) ∧
    (s.hasSCROLL = true →
      (s.setScrollSpeed 0).hasSCROLL = false ∧
      (s.setScrollSpeed 0).changed = s.changed + 1) ∧
    (s.setScrollSpeed v).setScrollSpeed v = s.setScrollSpeed v := by
  refine ⟨?_, ?_, ?_, ?_⟩
  · simp [Scanline.mk0, Scanline.setScrollSpeed]
  · intro h
    simp [Scanline.setScrollSpeed, hv, h]
  · intro h
    simp [Scanline.setScrollSpeed, h]
  · by_cases h : s.hasSCROLL <;> cases s <;>
      simp_all [Scanline.setScrollSpeed, hv]

/-- C5 witness: the scenario at density 1.25 with scroll speed toggled to 1. -/
theorem scanline_scroll_macro_witness :
    (Scanline.mk0 (5 / 4) 0).hasSCROLL = false ∧
    ((Scanline.mk0 (5 / 4) 0).setScrollSpeed 1).hasSCROLL = true ∧
    ((Scanline.mk0 (5 / 4) 0).setScrollSpeed 1).changed =
      (Scanline.mk0 (5 / 4) 0).changed + 1 := by
  have h := scanline_scroll_macro (5 / 4) 1 (Scanline.mk0 (5 / 4) 0)
    (by norm_num)
  have h0 : (Scanline.mk0 (5 / 4) 0).hasSCROLL = false := h.1.1
  exact ⟨h0, (h.2.1 h0).1, (h.2.1 h0).2⟩

/-! ### EffectMaterial -/

/-- C6 (amended): `setUniforms` merges the given uniform map with
last-writer-wins on name collision and never touches the recompilation
flag — neither for value overwrites of existing names nor for newly
introduced names. -/
theorem setUniforms_merge (m : EffectMaterial) (us : List (String × Nat)) :
    (setUniforms m us).version = m.version ∧
    (setUniforms m us).defines = m.defines ∧
    (setUniforms m us).fragmentShader = m.fragmentShader ∧
    (setUniforms m us).vertexShader = m.vertexShader ∧
    ∀ k, getEntry (setUniforms m us).uniforms k =
      fallback (lastWrite us k) (getEntry m.uniforms k) :=
  ⟨rfl, rfl, rfl, rfl, fun k => getEntry_foldl_setEntry us m.uniforms k⟩

/-- C6 counterexample: on a freshly constructed `EffectMaterial`, merging a
uniform map that introduces the undeclared name `scatter` performs the merge
but leaves the recompilation flag (the `needsUpdate` version counter)
unchanged — the source of `setUniforms` never assigns `needsUpdate`. -/
theorem setUniforms_new_name_no_flag :
    getEntry EffectMaterial.init.uniforms ("scatter") = none ∧
    (setUniforms EffectMaterial.init [(("scatter"), 7)]).version =
      EffectMaterial.init.version ∧
    getEntry (setUniforms EffectMaterial.init [(("scatter"), 7)]).uniforms
      ("scatter") = some 7 :=
  ⟨by decide, rfl, by decide⟩

/-- C7: assigning `colorSpaceConversion` its current value changes nothing;
assigning the opposite value flips the `COLOR_SPACE_CONVERSION` macro and
bumps the recompilation flag exactly once, leaving uniforms and shader
sources untouched. -/
theorem colorSpaceConversion_spec (m : EffectMaterial) (v : Bool)
    (hm : (m.defines.map Prod.fst).Nodup) :
    setColorSpaceConversion m (colorSpaceConversion m) = m ∧
    (v ≠ colorSpaceConversion m →
      colorSpaceConversion (setColorSpaceConversion m v) = v ∧
      (setColorSpaceConversion m v).version = m.version + 1 ∧
      (setColorSpaceConversion m v).uniforms = m.uniforms ∧
      (setColorSpaceConversion m v).fragmentShader = m.fragmentShader ∧
      (setColorSpaceConversion m v).vertexShader = m.vertexShader) := by
  constructor
  · simp [setColorSpaceConversion]
  · intro hv
    cases v with
    | false =>
        have hc : colorSpaceConversion m = true := by
          revert hv
          cases colorSpaceConversion m <;> simp
        have hc2 : (getEntry m.defines ("COLOR_SPACE_CONVERSION")).isSome = true := hc
        simp [setColorSpaceConversion, colorSpaceConversion, hc2,
          getEntry_delEntry_self m.defines _ hm]
    | true =>
        have hc : colorSpaceConversion m = false := by
          revert hv
          cases colorSpaceConversion m <;> simp
        have hc2 : (getEntry m.defines ("COLOR_SPACE_CONVERSION")).isSome = false := hc
        simp [setColorSpaceConversion, colorSpaceConversion, hc2,
          getEntry_setEntry_self]

/-- C7 witness: enabling color space conversion on the fresh material adds
the macro and bumps the version exactly once. -/
theorem colorSpaceConversion_spec_witness :
    colorSpaceConversion (setColorSpaceConversion EffectMaterial.init true) = true ∧
    (setColorSpaceConversion EffectMaterial.init true).version =
      EffectMaterial.init.version + 1 := by
  have h := (colorSpaceConversion_spec EffectMaterial.init true
    (by decide)).2 (by decide)
  exact ⟨h.1, h.2.1⟩

/-- C8: `setShaderParts` treats keys absent from the mapping as the empty
string; after the substitutions no placeholder marker remains in either
stage; the deferred recompilation flag is set (nothing compiles here); and a
repeated call with identical input yields byte-identical vertex and fragment
shader strings. -/
theorem setShaderParts_spec (m : EffectMaterial) (sp : SKey → Option String) :
    setShaderParts m sp = setShaderParts m (fun k => some ((sp k).getD (""))) ∧
    (fragParts sp).all isLit = true ∧
    (vertParts sp).all isLit = true ∧
    (setShaderParts m sp).version = m.version + 1 ∧
    (setShaderParts (setShaderParts m sp) sp).fragmentShader =
      (setShaderParts m sp).fragmentShader ∧
    (setShaderParts (setShaderParts m sp) sp).vertexShader =
      (setShaderParts m sp).vertexShader :=
  ⟨rfl, rfl, rfl, rfl, rfl, rfl⟩

/-! ### RenderPipeline: rendering, pass list, updateStyle -/

theorem renderLoop_eq (l : List PassObj) :
    renderLoop l = (l.filter fun x => x.enabled).map fun x => REvent.passRender x.pid := by
  induction l with
  | nil => rfl
  | cons x rest ih => by_cases h : x.enabled <;> simp [renderLoop, h, ih]

/-- C2: `render` is a no-op returning no events when the renderer is null;
otherwise its event trace is one `Timer.update` with the given timestamp
followed by one `render()` per enabled pass in list order (disabled passes
skipped), and the only state change is the timer advance. -/
theorem render_spec (p : Pipeline) (ts : Option ℚ) :
    (p.renderer = none → p.render ts = (p, [])) ∧
    (∀ r, p.renderer = some r →
      (p.render ts).2 =
        REvent.timerUpdate ts ::
          ((p.passes.filter fun x => x.enabled).map fun x => REvent.passRender x.pid) ∧
      (p.render ts).1.timerLog = p.timerLog ++ [ts] ∧
      (p.render ts).1.passes = p.passes ∧
      (p.render ts).1.renderer = p.renderer ∧
      (p.render ts).1.resolution = p.resolution ∧
      (p.render ts).1.updateStyle = p.updateStyle) := by
  constructor
  · intro h
    simp [Pipeline.render, h]
  · intro r h
    simp [Pipeline.render, h, renderLoop_eq]

/-- C2 witness: with a renderer attached and no passes, one render call
produces exactly the timer event. -/
theorem render_spec_witness :
    ((Pipeline.construct (some ⟨800, 600, 1, none⟩)).render (some 16)).2 =
      [REvent.timerUpdate (some 16)] := by
  have h := (render_spec (Pipeline.construct (some ⟨800, 600, 1, none⟩))
    (some 16)).2 _ rfl
  simpa [Pipeline.construct] using h.1

theorem any_pid_iff (l : List PassObj) (i : Nat) :
    (l.any fun y => y.pid == i) = true ↔ ∃ y ∈ l, y.pid = i := by
  simp [List.any_eq_true]

theorem registerPass_pid (p : Pipeline) (x : PassObj) :
    (p.registerPass x).pid = x.pid := by
  cases hr : p.renderer <;> simp [Pipeline.registerPass, hr]

/-- C3: `addPass` with a pass already in the list (same object identity)
throws and leaves the pass list — indeed the whole pipeline state — exactly
as it was; with a fresh pass it appends at the end, keeping every existing
pass in place and in order. -/
theorem addPass_spec (p : Pipeline) (x : PassObj) :
    ((∃ y ∈ p.passes, y.pid = x.pid) →
      (∃ e, p.addPass x = Except.error e) ∧ p.addPassState x = p) ∧
    ((∀ y ∈ p.passes, y.pid ≠ x.pid) →
      ∃ q, p.addPass x = Except.ok q ∧
        p.addPassState x = q ∧
        q.passes.length = p.passes.length + 1 ∧
        q.passes.take p.passes.length = p.passes ∧
        (q.passes.map fun y => y.pid) = (p.passes.map fun y => y.pid) ++ [x.pid]) := by
  constructor
  · intro hmem
    have hc : (p.passes.any fun y => y.pid == x.pid) = true :=
      (any_pid_iff _ _).2 hmem
    refine ⟨⟨("Unable to add pass ") ++ x.name ++ (" because it was already added"), ?_⟩, ?_⟩
    · simp [Pipeline.addPass, hc]
    · simp [Pipeline.addPassState, Pipeline.addPass, hc]
  · intro hno
    have hc : (p.passes.any fun y => y.pid == x.pid) = false := by
      cases hany : (p.passes.any fun y => y.pid == x.pid) with
      | false => rfl
      | true =>
          obtain ⟨y, hy, hp⟩ := (any_pid_iff _ _).1 hany
          exact absurd hp (hno y hy)
    refine ⟨{ p with passes := p.passes ++ [p.registerPass x] }, ?_, ?_, ?_, ?_, ?_⟩
    · simp [Pipeline.addPass, hc]
    · simp [Pipeline.addPassState, Pipeline.addPass, hc]
    · simp
    · exact List.take_left p.passes _
    · simp [registerPass_pid]

/-- C3 witness: adding the same pass object twice to a fresh pipeline throws
and leaves the state unchanged. -/
theorem addPass_spec_witness :
    (∃ e, Pipeline.addPass
        ⟨none, [⟨0, ("a"), true, Resolution.initial⟩], Resolution.initial, true, []⟩
        ⟨0, ("a"), true, Resolution.initial⟩ = Except.error e) ∧
    Pipeline.addPassState
        ⟨none, [⟨0, ("a"), true, Resolution.initial⟩], Resolution.initial, true, []⟩
        ⟨0, ("a"), true, Resolution.initial⟩ =
      ⟨none, [⟨0, ("a"), true, Resolution.initial⟩], Resolution.initial, true, []⟩ :=
  (addPass_spec _ _).1 ⟨_, List.mem_singleton.2 rfl, rfl⟩

theorem onResolutionChange_fields (p : Pipeline) :
    p.onResolutionChange.updateStyle = p.updateStyle ∧
    p.onResolutionChange.resolution = p.resolution ∧
    p.onResolutionChange.timerLog = p.timerLog := by
  cases hr : p.renderer <;> simp [Pipeline.onResolutionChange, hr]

theorem setRenderer_updateStyle (p : Pipeline) (v : Option Renderer) :
    (p.setRenderer v).updateStyle = p.updateStyle := by
  cases v with
  | none => rfl
  | some r => exact (onResolutionChange_fields _).1

theorem onResolutionChange_renderer_resize (p : Pipeline) (r : Renderer)
    (hr : p.renderer = some r)
    (hne : ¬(r.width = p.resolution.width ∧ r.height = p.resolution.height)) :
    p.onResolutionChange.renderer =
      some (r.setSize p.resolution.width p.resolution.height p.updateStyle) := by
  simp [Pipeline.onResolutionChange, hr, hne]

theorem setRenderer_resize (q : Pipeline) (r : Renderer)
    (hne : ¬(r.width = q.resolution.width ∧ r.height = q.resolution.height)) :
    (q.setRenderer (some r)).renderer =
      some (r.setSize q.resolution.width q.resolution.height q.updateStyle) := by
  have hr2 : ({ q with renderer := some r } : Pipeline).renderer = some r := rfl
  exact onResolutionChange_renderer_resize _ r hr2 hne

/-- C10: `setSize` overwrites the stored `updateStyle` with its argument
before the resize runs — the renderer resize triggered inside the same call
already uses it — the value persists afterwards, and a later renderer
attachment that needs a resize also uses the stored value rather than the
constructor default. -/
theorem setSize_updateStyle (p : Pipeline) (w h : ℤ) (us : Bool) :
    (p.setSize w h us).updateStyle = us ∧
    (∀ v, ((p.setSize w h us).setRenderer v).updateStyle = us) ∧
    (∀ r, p.renderer = some r →
      ¬(w = p.resolution.baseWidth ∧ h = p.resolution.baseHeight) →
      ¬(r.width = (p.setSize w h us).resolution.width ∧
        r.height = (p.setSize w h us).resolution.height) →
      ∃ r1, (p.setSize w h us).renderer = some r1 ∧ r1.lastStyle = some us) ∧
    (∀ r, ¬(r.width = (p.setSize w h us).resolution.width ∧
            r.height = (p.setSize w h us).resolution.height) →
      ∃ r1, ((p.setSize w h us).setRenderer (some r)).renderer = some r1 ∧
        r1.lastStyle = some us) := by
  have h1 : (p.setSize w h us).updateStyle = us := by
    by_cases hc : w = p.resolution.baseWidth ∧ h = p.resolution.baseHeight
    · simp [Pipeline.setSize, hc]
    · simp [Pipeline.setSize, hc, (onResolutionChange_fields _).1]
  refine ⟨h1, ?_, ?_, ?_⟩
  · intro v
    rw [setRenderer_updateStyle, h1]
  · intro r hr hne hne2
    have hq : p.setSize w h us =
        ({ p with updateStyle := us, resolution := p.resolution.setBaseSize w h } : Pipeline).onResolutionChange := by
      simp [Pipeline.setSize, hne]
    have hr2 : ({ p with updateStyle := us, resolution := p.resolution.setBaseSize w h } : Pipeline).renderer = some r := hr
    rw [hq] at hne2 ⊢
    rw [(onResolutionChange_fields _).2.1] at hne2
    rw [onResolutionChange_renderer_resize _ r hr2 hne2]
    exact ⟨_, rfl, rfl⟩
  · intro r hne2
    rw [setRenderer_resize _ r hne2]
    exact ⟨_, rfl, by rw [Renderer.setSize, h1]⟩

/-- C10 witness: after `setSize(800, 600, false)` the stored flag is `false`
and a later renderer attachment resizes the renderer with `false`. -/
theorem setSize_updateStyle_witness :
    ((Pipeline.construct none).setSize 800 600 false).updateStyle = false ∧
    ∃ r1, (((Pipeline.construct none).setSize 800 600 false).setRenderer
        (some ⟨0, 0, 1, none⟩)).renderer = some r1 ∧
      r1.lastStyle = some false := by
  have h := setSize_updateStyle (Pipeline.construct none) 800 600 false
  have hres : ((Pipeline.construct none).setSize 800 600 false).resolution =
      Resolution.initial.setBaseSize 800 600 := by
    have hne : ¬((800 : ℤ) = (0 : ℤ) ∧ (600 : ℤ) = (0 : ℤ)) := by decide
    simp [Pipeline.setSize, Pipeline.construct, Resolution.initial,
      Resolution.setBaseSize, Pipeline.onResolutionChange, hne]
  have hw : ((Pipeline.construct none).setSize 800 600 false).resolution.width = 800 := by
    rw [hres]
    simp [Resolution.width, Resolution.setBaseSize, Resolution.initial]
  refine ⟨h.1, h.2.2.2 _ ?_⟩
  intro hcontra
  rw [hw] at hcontra
  exact absurd hcontra.1 (by decide)

/-! ### RenderPipeline: resize propagation (C1) -/

theorem onResolutionChange_some (p : Pipeline) (r : Renderer)
    (hr : p.renderer = some r) :
    ∃ r1, p.onResolutionChange.renderer = some r1 ∧
      r1.width = p.resolution.width ∧
      r1.height = p.resolution.height ∧
      r1.scaleFactor = r.scaleFactor ∧
      p.onResolutionChange.passes = p.passes.map fun x =>
        { x with resolution := x.resolution.setBaseSize r1.drawingWidth r1.drawingHeight } := by
  by_cases hcond : r.width = p.resolution.width ∧ r.height = p.resolution.height
  · exact ⟨r, by simp [Pipeline.onResolutionChange, hr, hcond], hcond.1, hcond.2, rfl,
      by simp [Pipeline.onResolutionChange, hr, hcond]⟩
  · exact ⟨r.setSize p.resolution.width p.resolution.height p.updateStyle,
      by simp [Pipeline.onResolutionChange, hr, hcond], rfl, rfl, rfl,
      by simp [Pipeline.onResolutionChange, hr, hcond]⟩

theorem onResolutionChange_inv (p : Pipeline) (hscale : p.resolution.scale = 1) :
    Pipeline.Inv p.onResolutionChange := by
  refine ⟨by rw [(onResolutionChange_fields p).2.1]; exact hscale, ?_⟩
  intro r2 hr2
  cases hr : p.renderer with
  | none =>
      rw [show p.onResolutionChange = p by simp [Pipeline.onResolutionChange, hr]] at hr2
      rw [hr] at hr2
      cases hr2
  | some r =>
      obtain ⟨r1, h1, hww, hhh, hsf, hps⟩ := onResolutionChange_some p r hr
      rw [h1] at hr2
      injection hr2 with hr2
      subst hr2
      constructor
      · intro x hx
        rw [hps] at hx
        obtain ⟨x0, hx0, rfl⟩ := List.mem_map.1 hx
        exact ⟨rfl, rfl⟩
      · left
        rw [(onResolutionChange_fields p).2.1]
        exact ⟨hww, hhh⟩

theorem reach_inv (p : Pipeline) (hp : Pipeline.Reach p) : Pipeline.Inv p := by
  induction hp with
  | construct r =>
      refine ⟨rfl, ?_⟩
      intro r2 _
      exact ⟨fun x hx => absurd hx (List.not_mem_nil x), Or.inr ⟨rfl, rfl⟩⟩
  | addPass p x _ ih =>
      obtain ⟨hscale, hrest⟩ := ih
      by_cases hc : (p.passes.any fun y => y.pid == x.pid) = true
      · rw [show p.addPassState x = p by
          simp [Pipeline.addPassState, Pipeline.addPass, hc]]
        exact ⟨hscale, hrest⟩
      · have hc2 : (p.passes.any fun y => y.pid == x.pid) = false :=
          Bool.eq_false_iff.2 hc
        rw [show p.addPassState x = { p with passes := p.passes ++ [p.registerPass x] } by
          simp [Pipeline.addPassState, Pipeline.addPass, hc2]]
        refine ⟨hscale, ?_⟩
        intro r hr
        obtain ⟨hpasses, hdisj⟩ := hrest r hr
        refine ⟨?_, hdisj⟩
        intro y hy
        rcases List.mem_append.1 hy with hy | hy
        · exact hpasses y hy
        · rcases List.mem_singleton.1 hy with rfl
          have hr0 : p.renderer = some r := hr
          simp [Pipeline.registerPass, hr0, Resolution.setBaseSize]
  | removePass p i _ ih =>
      obtain ⟨hscale, hrest⟩ := ih
      by_cases hc : (p.passes.any fun y => y.pid == i) = true
      · rw [show p.removePass i = { p with passes := p.passes.eraseP fun y => y.pid == i } by
          simp [Pipeline.removePass, hc]]
        refine ⟨hscale, fun r hr => ?_⟩
        obtain ⟨hpasses, hdisj⟩ := hrest r hr
        exact ⟨fun y hy => hpasses y (List.mem_of_mem_eraseP hy), hdisj⟩
      · rw [show p.removePass i = p by simp [Pipeline.removePass, hc]]
        exact ⟨hscale, hrest⟩
  | removeAll p _ ih =>
      exact ⟨ih.1, fun r hr =>
        ⟨fun y hy => absurd hy (List.not_mem_nil y), (ih.2 r hr).2⟩⟩
  | setRenderer p v _ ih =>
      cases v with
      | none =>
          exact ⟨ih.1, fun r hr => absurd hr (by simp [Pipeline.setRenderer])⟩
      | some r0 =>
          exact onResolutionChange_inv _ ih.1
  | setSize p w h us hw hh _ ih =>
      by_cases hc : w = p.resolution.baseWidth ∧ h = p.resolution.baseHeight
      · rw [show p.setSize w h us = { p with updateStyle := us } by
          simp [Pipeline.setSize, hc]]
        exact ⟨ih.1, fun r hr => ih.2 r hr⟩
      · rw [show p.setSize w h us =
            ({ p with updateStyle := us, resolution := p.resolution.setBaseSize w h } : Pipeline).onResolutionChange by
          simp [Pipeline.setSize, hc]]
        exact onResolutionChange_inv _ ih.1
  | render p ts _ ih =>
      cases hr : p.renderer with
      | none =>
          rw [show (p.render ts).1 = p by simp [Pipeline.render, hr]]
          exact ih
      | some r =>
          rw [show (p.render ts).1 = { p with timerLog := p.timerLog ++ [ts] } by
            simp [Pipeline.render, hr]]
          exact ⟨ih.1, fun r2 hr2 => ih.2 r2 hr2⟩

/-- C1: from any reachable pipeline state with a renderer attached, right
after `setSize(W, H)` returns every attached pass's resolution has base size
`round(W × S) × round(H × S)`, where `S` is the renderer's device scale
factor — no further calls needed. -/
theorem setSize_propagates (p : Pipeline) (hp : Pipeline.Reach p) (r : Renderer)
    (hr : p.renderer = some r) (w h : ℤ) (hw : 0 < w) (hh : 0 < h) (us : Bool) :
    ∀ x ∈ (p.setSize w h us).passes,
      x.resolution.baseWidth = round ((w : ℚ) * r.scaleFactor) ∧
      x.resolution.baseHeight = round ((h : ℚ) * r.scaleFactor) := by
  obtain ⟨hscale, hrest⟩ := reach_inv p hp
  have hweff : (p.resolution.setBaseSize w h).width = w := by
    simp [Resolution.width, Resolution.setBaseSize, hscale]
  have hheff : (p.resolution.setBaseSize w h).height = h := by
    simp [Resolution.height, Resolution.setBaseSize, hscale]
  by_cases hc : w = p.resolution.baseWidth ∧ h = p.resolution.baseHeight
  · rw [show p.setSize w h us = { p with updateStyle := us } by
      simp [Pipeline.setSize, hc]]
    intro x hx
    obtain ⟨hpasses, hdisj⟩ := hrest r hr
    obtain ⟨hbw, hbh⟩ := hpasses x hx
    rcases hdisj with ⟨hrw, hrh⟩ | ⟨h0w, h0h⟩
    · have hresw : p.resolution.width = w := by
        simp [Resolution.width, hscale, ← hc.1]
      have hresh : p.resolution.height = h := by
        simp [Resolution.height, hscale, ← hc.2]
      constructor
      · rw [hbw, Renderer.drawingWidth, hrw, hresw]
      · rw [hbh, Renderer.drawingHeight, hrh, hresh]
    · exfalso
      have hc1 := hc.1
      omega
  · rw [show p.setSize w h us =
        ({ p with updateStyle := us, resolution := p.resolution.setBaseSize w h } : Pipeline).onResolutionChange by
      simp [Pipeline.setSize, hc]]
    have hr2 : ({ p with updateStyle := us, resolution := p.resolution.setBaseSize w h } : Pipeline).renderer = some r := hr
    obtain ⟨r1, h1, hww, hhh, hsf, hps⟩ := onResolutionChange_some _ r hr2
    intro x hx
    rw [hps] at hx
    obtain ⟨x0, hx0, rfl⟩ := List.mem_map.1 hx
    constructor
    · show r1.drawingWidth = round ((w : ℚ) * r.scaleFactor)
      rw [Renderer.drawingWidth, hsf, hww]
      rw [show ({ p with updateStyle := us, resolution := p.resolution.setBaseSize w h } : Pipeline).resolution = p.resolution.setBaseSize w h from rfl]
      rw [hweff]
    · show r1.drawingHeight = round ((h : ℚ) * r.scaleFactor)
      rw [Renderer.drawingHeight, hsf, hhh]
      rw [show ({ p with updateStyle := us, resolution := p.resolution.setBaseSize w h } : Pipeline).resolution = p.resolution.setBaseSize w h from rfl]
      rw [hheff]

/-- C1 witness: a reachable pipeline with device scale factor 2 and one
attached pass; after `setSize(800, 600)` the single pass's base size is
`1600 × 1200`. -/
theorem setSize_propagates_witness :
    ((((Pipeline.construct (some ⟨0, 0, 2, none⟩)).addPassState
        ⟨0, ("p"), true, Resolution.initial⟩).setSize 800 600 true).passes.map
      fun x => (x.resolution.baseWidth, x.resolution.baseHeight)) = [(1600, 1200)] := by
  have h := setSize_propagates
    ((Pipeline.construct (some ⟨0, 0, 2, none⟩)).addPassState
      ⟨0, ("p"), true, Resolution.initial⟩)
    (Pipeline.Reach.addPass _ _ (Pipeline.Reach.construct _))
    ⟨0, 0, 2, none⟩ rfl 800 600 (by norm_num) (by norm_num) true
  obtain ⟨x1, hx1⟩ : ∃ x1, (((Pipeline.construct (some ⟨0, 0, 2, none⟩)).addPassState
      ⟨0, ("p"), true, Resolution.initial⟩).setSize 800 600 true).passes = [x1] := ⟨_, rfl⟩
  rw [hx1] at h ⊢
  have hx := h x1 (List.mem_singleton.2 rfl)
  simp only [List.map_cons, List.map_nil, hx.1, hx.2, round_eq]
  norm_num

/-! ### Pass lifecycle (C4) -/

theorem any_beq_iff (l : List Nat) (i : Nat) :
    (l.any fun j => j == i) = true ↔ i ∈ l := by
  simp [List.any_eq_true]

theorem world_reach_inv (w : World) (hw : World.Reach w) : World.Inv w := by
  induction hw with
  | construct rp =>
      refine ⟨List.nodup_nil, ?_, ?_⟩
      · intro i hi
        exact absurd hi (List.not_mem_nil i)
      · intro i h hpool
        cases hpool
  | newPass w i hfresh _ ih =>
      obtain ⟨hnd, hex, hinv⟩ := ih
      have hni : i ∉ w.members := fun hm => (hex i hm) hfresh
      refine ⟨hnd, ?_, ?_⟩
      · intro j hj
        by_cases hji : j = i
        · subst hji
          simp [World.newPass]
        · simpa [World.newPass, hji] using hex j hj
      · intro j h hpool
        by_cases hji : j = i
        · subst hji
          simp only [World.newPass, if_pos rfl] at hpool
          injection hpool with hpool
          subst hpool
          simp [World.newPass, hni]
        · simp only [World.newPass, if_neg hji] at hpool
          simpa [World.newPass] using hinv j h hpool
  | addPass w i h0 hex0 _ ih =>
      obtain ⟨hnd, hex, hinv⟩ := ih
      by_cases hc : (w.members.any fun j => j == i) = true
      · rw [show w.addPass i = w by simp [World.addPass, hc]]
        exact ⟨hnd, hex, hinv⟩
      · have hni : i ∉ w.members := fun hm => hc ((any_beq_iff _ _).2 hm)
        rw [show w.addPass i =
            { w with members := w.members ++ [i]
                     pool := fun j =>
                       if j = i then some { hasRenderer := w.rendererPresent, hasTimer := true }
                       else w.pool j } by simp [World.addPass, hc]]
        refine ⟨?_, ?_, ?_⟩
        · simpa [List.nodup_append, hnd] using hni
        · intro j hj
          by_cases hji : j = i
          · subst hji
            simp
          · rcases List.mem_append.1 hj with hj | hj
            · simpa [hji] using hex j hj
            · exact absurd (List.mem_singleton.1 hj) hji
        · intro j h hpool
          by_cases hji : j = i
          · subst hji
            simp only [if_pos rfl] at hpool
            injection hpool with hpool
            subst hpool
            simp
          · simp only [if_neg hji] at hpool
            have := hinv j h hpool
            simpa [List.mem_append, hji] using this
  | removePass w i _ ih =>
      obtain ⟨hnd, hex, hinv⟩ := ih
      by_cases hc : (w.members.any fun j => j == i) = true
      · rw [show w.removePass i =
            { w with members := w.members.erase i
                     pool := fun j =>
                       if j = i then
                         (w.pool j).map fun _ => { hasRenderer := false, hasTimer := false }
                       else w.pool j } by simp [World.removePass, hc]]
        refine ⟨hnd.erase i, ?_, ?_⟩
        · intro j hj
          have hjm : j ∈ w.members := List.mem_of_mem_erase hj
          by_cases hji : j = i
          · subst hji
            intro hcontra
            simp only [if_pos rfl] at hcontra
            exact (hex j hjm) (Option.map_eq_none.1 hcontra)
          · simpa [hji] using hex j hjm
        · intro j h hpool
          by_cases hji : j = i
          · subst hji
            simp only [if_pos rfl] at hpool
            obtain ⟨h1, hpool1, hpool2⟩ := Option.map_eq_some.1 hpool
            subst hpool2
            simp [hnd.not_mem_erase]
          · simp only [if_neg hji] at hpool
            have := hinv j h hpool
            simpa [List.mem_erase_of_ne hji] using this
      · rw [show w.removePass i = w by simp [World.removePass, hc]]
        exact ⟨hnd, hex, hinv⟩
  | removeAll w _ ih =>
      obtain ⟨hnd, hex, hinv⟩ := ih
      refine ⟨List.nodup_nil, ?_, ?_⟩
      · intro j hj
        exact absurd hj (List.not_mem_nil j)
      · intro j h hpool
        by_cases hjm : (w.members.any fun m => m == j) = true
        · simp only [World.removeAllPasses, hjm, if_true] at hpool
          obtain ⟨h1, hpool1, hpool2⟩ := Option.map_eq_some.1 hpool
          subst hpool2
          simp [World.removeAllPasses]
        · simp only [World.removeAllPasses, hjm] at hpool
          have hjnm : j ∉ w.members := fun hm => hjm ((any_beq_iff _ _).2 hm)
          have hold := hinv j h hpool
          simp only [World.removeAllPasses]
          constructor
          · rw [hold.1]
            simp [hjnm]
          · rw [hold.2]
            simp [hjnm]
  | setRenderer w rp _ ih =>
      obtain ⟨hnd, hex, hinv⟩ := ih
      refine ⟨hnd, ?_, ?_⟩
      · intro j hj
        have hj0 : j ∈ w.members := hj
        have hps : (w.setRenderer rp).pool j =
            (w.pool j).map fun h => { h with hasRenderer := rp } := by
          simp [World.setRenderer, hj0]
        rw [hps]
        intro hcontra
        exact (hex j hj) (Option.map_eq_none.1 hcontra)
      · intro j h hpool
        by_cases hjmem : j ∈ w.members
        · have hps : (w.setRenderer rp).pool j =
              (w.pool j).map fun h => { h with hasRenderer := rp } := by
            simp [World.setRenderer, hjmem]
          rw [hps] at hpool
          obtain ⟨h1, hpool1, hpool2⟩ := Option.map_eq_some.1 hpool
          subst hpool2
          have hold := hinv j h1 hpool1
          refine ⟨?_, ?_⟩
          · exact ⟨fun _ => hjmem, fun _ => hold.1.mpr hjmem⟩
          · exact ⟨fun hrp => ⟨hjmem, hrp⟩, fun hconj => hconj.2⟩
        · have hps : (w.setRenderer rp).pool j = w.pool j := by
            simp [World.setRenderer, hjmem]
          rw [hps] at hpool
          have hold := hinv j h hpool
          refine ⟨?_, ?_⟩
          · exact ⟨fun ht => absurd (hold.1.mp ht) hjmem,
              fun hm => absurd hm hjmem⟩
          · exact ⟨fun hr => absurd (hold.2.mp hr).1 hjmem,
              fun hconj => absurd hconj.1 hjmem⟩

/-- C4 counterexample: a pass added to a pipeline whose renderer is null is a
member of the pass list while its renderer handle is null — refuting the
claim that the renderer and timer handles are non-null exactly when the pass
is a member of some pipeline's pass list. -/
theorem passHandles_iff_member_cex :
    World.Reach (((World.construct false).newPass 0).addPass 0) ∧
    0 ∈ (((World.construct false).newPass 0).addPass 0).members ∧
    (((World.construct false).newPass 0).addPass 0).pool 0 =
      some { hasRenderer := false, hasTimer := true } := by
  refine ⟨?_, ?_, rfl⟩
  · exact World.Reach.addPass _ 0 ⟨false, false⟩ rfl
      (World.Reach.newPass _ 0 rfl (World.Reach.construct false))
  · decide

/-- C4 (amended): in every reachable state, a pass's timer handle is
non-null exactly when the pass is a member of the pipeline's pass list, and
its renderer handle is non-null exactly when it is a member and the
pipeline's renderer is itself non-null; so `addPass` establishes a non-null
timer handle but copies the pipeline's (possibly null) renderer handle, and
`removePass` / `removeAllPasses` reset both handles to null. -/
theorem passHandles_amended (w : World) (hw : World.Reach w) (i : Nat)
    (h : PassHandles) (hpool : w.pool i = some h) :
    ((h.hasTimer = true) ↔ i ∈ w.members) ∧
    ((h.hasRenderer = true) ↔ (i ∈ w.members ∧ w.rendererPresent = true)) :=
  (world_reach_inv w hw).2.2 i h hpool

/-- C4 witness: with a live renderer, the freshly added pass has both
handles non-null and the amended invariant certifies its membership. -/
theorem passHandles_amended_witness :
    0 ∈ (((World.construct true).newPass 0).addPass 0).members := by
  have h := passHandles_amended _ (World.Reach.addPass _ 0 ⟨false, false⟩ rfl
    (World.Reach.newPass _ 0 rfl (World.Reach.construct true))) 0 ⟨true, true⟩ rfl
  exact h.1.mp rfl

end Post
